import Mathlib

/-!
Verification of the RainDrop-Commander audit/caching logic.

Shallow embedding of:
- `commander/services/commander_agent.py` (audit orchestration, weighted
  executive-summary scoring),
- `commander/services/cache_service.py` (two-tier exact/semantic cache,
  in-memory backend),
- `commander/services/gemini_client.py` (JSON normalization).

Python floats are modelled as rationals, Python dicts as records with
optional fields or as function maps, and external effects (LLM calls,
embeddings, hash functions) as explicit parameters.
-/

namespace RaindropCommander

/-! ### Tool reports (`commander_agent.py`)

A tool report is a Python dict.  The executive-summary code reads the keys
`tool_name`, `status`, `score`, `variance_score` and
`details.variance_score`; we model exactly those.  An `Option` field is
`none` when the key is absent (or maps to `None`); `details` is `none` when
the `details` key is absent, and `some d` where `d` is the value of
`details.get("variance_score")` otherwise. -/
structure Report where
  tool_name : String
  status : Option String
  score : Option ℚ
  variance_score : Option ℚ
  details : Option (Option ℚ)
  message : String
deriving DecidableEq

/-- Python `a or b` on two optional numbers: `None` and `0` are falsy. -/
def py_or_opt (a b : Option ℚ) : Option ℚ :=
  match a with
  | some x => if x = 0 then b else some x
  | none => b

/-- Lines 54-56: reports whose `status` is `"FAIL"`. -/
def critical_issues (reports : List Report) : List Report :=
  reports.filter (fun r => r.status = some "FAIL")

/-- Lines 54-56: reports whose `status` is `"WARN"`. -/
def warnings (reports : List Report) : List Report :=
  reports.filter (fun r => r.status = some "WARN")

/-- The loop in lines 63-72 overwrites the extracted value on every report
with a matching `tool_name`, so the final value comes from the last
matching report. -/
def find_last_tool (reports : List Report) (name : String) : Option Report :=
  (reports.filter (fun r => r.tool_name = name)).getLast?

/-- Lines 66-68: `report.get("score") or report.get("variance_score")`,
falling back to `details.get("variance_score")` when that is `None`. -/
def extract_overfit (r : Report) : Option ℚ :=
  match py_or_opt r.score r.variance_score with
  | some x => some x
  | none => r.details.bind (fun d => d)

/-- Final value of the `overfit_score` variable after the loop. -/
def overfit_score (reports : List Report) : Option ℚ :=
  (find_last_tool reports "Variance/Overfit Detector").bind extract_overfit

/-- Final value of the `red_team_score` variable (line 70). -/
def red_team_score (reports : List Report) : Option ℚ :=
  (find_last_tool reports "Synthetic Red Team").bind (fun r => r.score)

/-- Final value of the `boundary_status` variable (line 72):
`report.get("status", "PASS")` of the last Semantic Boundary Mapper
report; `none` when no such report exists. -/
def boundary_status (reports : List Report) : Option String :=
  (find_last_tool reports "Semantic Boundary Mapper").map (fun r => r.status.getD "PASS")

/-- Line 92: status-based fallback for a missing red-team score:
`50 if warnings else (30 if critical_issues else 80)`. -/
def red_team_fallback (reports : List Report) : ℚ :=
  if warnings reports ≠ [] then 50 else if critical_issues reports ≠ [] then 30 else 80

/-- Line 97: `100 if boundary_status == "PASS" else (50 if boundary_status
== "WARN" else 30)`; a missing status (`None`) falls to 30. -/
def boundary_points (reports : List Report) : ℚ :=
  match boundary_status reports with
  | some s => if s = "PASS" then 100 else if s = "WARN" then 50 else 30
  | none => 30

/-- Lines 76-99: the `(cumulative_score, weights_applied)` accumulator just
before normalization. -/
def score_and_weights (reports : List Report) : ℚ × ℚ :=
  let acc : ℚ × ℚ := (0, 0)
  let acc : ℚ × ℚ :=
    match overfit_score reports with
    | some s => (acc.1 + s * (6/10), acc.2 + 6/10)
    | none => (acc.1 + 30 * (6/10), acc.2 + 6/10)
  let acc : ℚ × ℚ :=
    match red_team_score reports with
    | some s => (acc.1 + s * (3/10), acc.2 + 3/10)
    | none => (acc.1 + red_team_fallback reports * (3/10), acc.2 + 3/10)
  (acc.1 + boundary_points reports * (1/10), acc.2 + 1/10)

/-- Lines 102-103: divide by `weights_applied` when it is positive. -/
def cumulative_score (reports : List Report) : ℚ :=
  let acc := score_and_weights reports
  if 0 < acc.2 then acc.1 / acc.2 else acc.1

/-- True when the overfit score is present and below `x`
(Python `overfit_score is not None and overfit_score < x`). -/
def overfit_below (reports : List Report) (x : ℚ) : Bool :=
  match overfit_score reports with
  | some s => decide (s < x)
  | none => false

/-- Lines 106-114: the `overall_status` value. -/
def overall_status (reports : List Report) : String :=
  if (critical_issues reports).length > 0 ∨ cumulative_score reports < 50 then
    "REJECTED"
  else if cumulative_score reports < 70 ∨ overfit_below reports 60 then
    "APPROVED_WITH_WARNINGS"
  else
    "APPROVED"

def rec_rejected : String :=
  "❌ NOT RECOMMENDED: This rule has critical issues or low overall score. Review the detailed scores before deploying."

def rec_caution : String :=
  "⚠️ PROCEED WITH CAUTION: This rule may have generalization issues. Consider reviewing the overfit score and adding more diverse examples."

def rec_approved : String :=
  "✅ RECOMMENDED: This rule shows good generalization and robustness. Safe to deploy."

def rec_low_overfit : String :=
  "❌ NOT RECOMMENDED: Low overfit score indicates poor generalization. This rule may fail on new examples."

def rec_strong : String :=
  "✅ STRONGLY RECOMMENDED: High overfit score and good overall performance. This rule should generalize well."

/-- Lines 106-120: the `recommendation` value, including the two
score-based overrides of lines 117-120. -/
def recommendation (reports : List Report) : String :=
  let base :=
    if (critical_issues reports).length > 0 ∨ cumulative_score reports < 50 then
      rec_rejected
    else if cumulative_score reports < 70 ∨ overfit_below reports 60 then
      rec_caution
    else
      rec_approved
  match overfit_score reports with
  | some s =>
      if s < 50 then rec_low_overfit
      else if 80 ≤ s ∧ 75 ≤ cumulative_score reports then rec_strong
      else base
  | none => base

/-- Python `round` at one decimal: round half to even on rationals. -/
def round_half_even (q : ℚ) : ℤ :=
  let f := ⌊q⌋
  if q - f < 1/2 then f
  else if 1/2 < q - f then f + 1
  else if 2 ∣ f then f else f + 1

def round1 (q : ℚ) : ℚ := (round_half_even (q * 10) : ℚ) / 10

structure ExecutiveSummary where
  overall_status : String
  critical_issues_count : ℕ
  warnings_count : ℕ
  recommendation : String
  cumulative_score : ℚ
  overfit_score : Option ℚ
  red_team_score : Option ℚ
  boundary_status : Option String
deriving DecidableEq

/-- Lines 52-131: `_generate_executive_summary` (the returned dict rounds
the cumulative score to one decimal, line 127). -/
def generate_executive_summary (reports : List Report) : ExecutiveSummary :=
  { overall_status := overall_status reports
    critical_issues_count := (critical_issues reports).length
    warnings_count := (warnings reports).length
    recommendation := recommendation reports
    cumulative_score := round1 (cumulative_score reports)
    overfit_score := overfit_score reports
    red_team_score := red_team_score reports
    boundary_status := boundary_status reports }

/-! ### Audit orchestration (`commander_agent.py`, lines 10-50)

Each tool's `run` is an LLM-backed call that either returns a report dict
or raises; we model one run by an `Except String Report` outcome. -/

/-- Lines 35-39: the report appended when a tool raises. -/
def error_report (tool_name msg : String) : Report :=
  { tool_name := tool_name, status := some "WARN", score := none,
    variance_score := none, details := none, message := "Error: " ++ msg }

/-- One iteration of the loop body (lines 30-39). -/
def resolve_tool (name : String) (outcome : Except String Report) : Report :=
  match outcome with
  | .ok r => r
  | .error e => error_report name e

/-- The loop of lines 26-39: reports are appended in tool order, an
exception never aborts the remaining iterations. -/
def run_tools (outcomes : List (String × Except String Report)) : List Report :=
  outcomes.foldl (fun reports t => reports ++ [resolve_tool t.1 t.2]) []

/-- Lines 13-17: the fixed tool list; line 27 uses the class name. -/
def commander_tool_names : List String :=
  ["RedTeamTool", "OverfitDetectorTool", "SemanticMapperTool"]

/-- The `reports` list produced by `audit_rule` when tool `n` has outcome
`outcome n`. -/
def audit_rule_reports (outcome : String → Except String Report) : List Report :=
  run_tools (commander_tool_names.map (fun n => (n, outcome n)))

structure AuditResult where
  rule_description : String
  reports : List Report
  executive_summary : ExecutiveSummary
deriving DecidableEq

/-- Lines 19-50: `audit_rule` (timestamp omitted). -/
def audit_rule (rule : String) (outcome : String → Except String Report) : AuditResult :=
  let reports := audit_rule_reports outcome
  { rule_description := rule, reports := reports,
    executive_summary := generate_executive_summary reports }

/-! ### JSON normalization (`gemini_client.py`, `generate_json`)

The model response text and the JSON parser (`json.loads`) are
abstracted; fence stripping (lines 176-184) is concrete string code. -/

/-- Characters removed by Python `str.strip()`. -/
def py_is_space (c : Char) : Bool :=
  c == ' ' || c == '\t' || c == '\n' || c == '\r' || c == '\x0b' || c == '\x0c'

def lstrip_chars (l : List Char) : List Char := l.dropWhile py_is_space

def rstrip_chars (l : List Char) : List Char := (l.reverse.dropWhile py_is_space).reverse

/-- Python `str.strip()`. -/
def py_strip (l : List Char) : List Char := rstrip_chars (lstrip_chars l)

/-- Python `str.startswith`. -/
def starts_with : List Char → List Char → Bool
  | [], _ => true
  | _ :: _, [] => false
  | p :: ps, c :: cs => p == c && starts_with ps cs

/-- Python `str.endswith`. -/
def ends_with (p l : List Char) : Bool := starts_with p.reverse l.reverse

/-- Lines 176-184: strip surrounding whitespace and markdown code fences. -/
def strip_code_fences (l : List Char) : List Char :=
  let t := py_strip l
  let t := if starts_with "```json".data t then t.drop 7 else t
  let t := if starts_with "```".data t then t.drop 3 else t
  let t := if ends_with "```".data t then t.take (t.length - 3) else t
  py_strip t

def json_instruction : String := "\n\nReturn only valid JSON, no other text."

/-- Line 128: the prompt actually sent. -/
def json_prompt (prompt : String) : String := prompt ++ json_instruction

/-- Lines 172-191: parse the response text; on failure strip code fences
and re-parse; raise only when that also fails. -/
def parse_json_response {J : Type} (parse : String → Option J) (text : String) : Except String J :=
  match parse text with
  | some v => Except.ok v
  | none =>
      match parse (String.mk (strip_code_fences text.data)) with
      | some v => Except.ok v
      | none => Except.error "Failed to parse JSON response"

/-! ### Two-tier cache (`cache_service.py`, in-memory backend)

We model the in-process backend (`redis_client is None`): `_memory_cache`
as a map from exact keys to `(result, expiry)` and
`_memory_semantic_cache` as a map from task types to entry lists.  Times
and similarities are rationals.  External pieces (md5, embeddings, cosine
similarity, Python truthiness of results) are fields of `CacheEnv`. -/

def CACHE_TTL_EXAMPLES : ℚ := 604800
def CACHE_TTL_EVALUATION : ℚ := 86400
def CACHE_TTL_DEFAULT : ℚ := 86400

/-- Substring occurrence over character lists. -/
def is_sub_list (p : List Char) : List Char → Bool
  | [] => p.isEmpty
  | c :: cs => starts_with p (c :: cs) || is_sub_list p cs

/-- Python `needle in haystack` on strings. -/
def contains_sub (needle haystack : String) : Bool :=
  is_sub_list needle.data haystack.data

/-- Python `str.lower()`. -/
def lower (s : String) : String := String.mk (s.data.map Char.toLower)

/-- Lines 64-71: `_get_cache_ttl`. -/
def get_cache_ttl (task_type : String) : ℚ :=
  if contains_sub "example" (lower task_type) || contains_sub "generation" (lower task_type) then
    CACHE_TTL_EXAMPLES
  else if contains_sub "evaluation" (lower task_type) || contains_sub "validation" (lower task_type) then
    CACHE_TTL_EVALUATION
  else
    CACHE_TTL_DEFAULT

/-- Lines 74-78: `_get_exact_cache_key` renders the Redis key string
`exact:{task_type}:{md5(prompt|task_type|temperature)}`.  A hexdigest
never contains `:`, so that string is determined by and determines the
pair `(task_type, digest)`, which we use as the key value.  `md5` is
abstracted as a function parameter and the temperature by the string
Python interpolates for it (which never contains `|`). -/
structure ExactKey where
  task_type : String
  digest : String
deriving DecidableEq

/-- Line 76: the string fed to md5. -/
def exact_key_payload (prompt task_type temperature : String) : String :=
  prompt ++ "|" ++ task_type ++ "|" ++ temperature

def get_exact_cache_key (md5 : String → String) (prompt task_type temperature : String) :
    ExactKey :=
  { task_type := task_type, digest := md5 (exact_key_payload prompt task_type temperature) }

/-- A temperature rendering is `|`-free (true of every Python float). -/
def bar_free (s : String) : Bool := s.data.all (fun c => c != '|')

/-- External dependencies of the cache module. -/
structure CacheEnv (E V : Type) where
  enabled : Bool
  md5 : String → String
  get_embedding : String → Option E
  cos : E → E → ℚ
  truthy : V → Bool
  threshold : ℚ

/-- Default `SEMANTIC_CACHE_THRESHOLD` (line 29). -/
def default_threshold : ℚ := 85/100

/-- The in-process cache: `_memory_cache` and `_memory_semantic_cache`. -/
structure CacheState (E V : Type) where
  exact : ExactKey → Option (V × ℚ)
  semantic : String → List (String × E × V)

def init_cache {E V : Type} : CacheState E V :=
  { exact := fun _ => none, semantic := fun _ => [] }

/-- Lines 190-252: `set_cached_result`, in-memory branches. -/
def set_cached_result {E V : Type} (env : CacheEnv E V) (now : ℚ) (prompt : String)
    (result : V) (task_type temperature : String) (s : CacheState E V) : CacheState E V :=
  if env.enabled = false then s else
  let ttl := get_cache_ttl task_type
  let key := get_exact_cache_key env.md5 prompt task_type temperature
  let s1 : CacheState E V :=
    { s with exact := fun k => if k = key then some (result, now + ttl) else s.exact k }
  match env.get_embedding prompt with
  | none => s1
  | some e =>
      let entry := (env.md5 prompt, e, result)
      let l := s1.semantic task_type ++ [entry]
      let l := if l.length > 100 then l.drop 1 else l
      { s1 with semantic := fun t => if t = task_type then l else s1.semantic t }

/-- Lines 117-124: the in-memory exact tier; a hit requires
`time.time() < expiry`, and an expired entry is deleted. -/
def exact_memory_lookup {E V : Type} (s : CacheState E V) (key : ExactKey) (now : ℚ) :
    Option V × CacheState E V :=
  match s.exact key with
  | some rv =>
      if now < rv.2 then (some rv.1, s)
      else (none, { s with exact := fun k => if k = key then none else s.exact k })
  | none => (none, s)

/-- Lines 177-180, one iteration: update `(best_match, best_similarity)`
when `best_similarity < similarity` and `threshold <= similarity`. -/
def scan_step {E V : Type} (env : CacheEnv E V) (qe : E) (acc : Option V × ℚ)
    (entry : String × E × V) : Option V × ℚ :=
  let sim := env.cos qe entry.2.1
  if acc.2 < sim ∧ env.threshold ≤ sim then (some entry.2.2, sim) else acc

/-- Lines 173-180: the in-memory semantic scan; the accumulator is the
`(best_match, best_similarity)` pair, with no early exit. -/
def semantic_memory_scan {E V : Type} (env : CacheEnv E V) (qe : E)
    (entries : List (String × E × V)) : Option V × ℚ :=
  entries.foldl (scan_step env qe) (none, 0)

/-- Lines 102-187: `get_cached_result`, in-memory branches; returns the
result together with the updated state. -/
def get_cached_result {E V : Type} (env : CacheEnv E V) (now : ℚ)
    (prompt task_type temperature : String) (s : CacheState E V) :
    Option V × CacheState E V :=
  if env.enabled = false then (none, s) else
  let key := get_exact_cache_key env.md5 prompt task_type temperature
  let hit := exact_memory_lookup s key now
  match hit.1 with
  | some r => (some r, hit.2)
  | none =>
      let s1 := hit.2
      match env.get_embedding prompt with
      | none => (none, s1)
      | some qe =>
          let best := semantic_memory_scan env qe (s1.semantic task_type)
          match best.1 with
          | some r => if env.truthy r then (some r, s1) else (none, s1)
          | none => (none, s1)

/-- Derived shorthand (not a source function): the value produced by the
in-memory semantic tier (lines 126-187) on a given partition list, used to
characterize `get_cached_result`. -/
def semantic_tier_result {E V : Type} (env : CacheEnv E V) (p : String)
    (entries : List (String × E × V)) : Option V :=
  match env.get_embedding p with
  | none => none
  | some qe =>
      match (semantic_memory_scan env qe entries).1 with
      | some r => if env.truthy r then some r else none
      | none => none

/-- Lines 141-162: the Redis-path semantic scan over the fetched entries,
with the early `break` once `best_similarity >= 0.95` (lines 158-160). -/
def semantic_redis_scan {E V : Type} (env : CacheEnv E V) (qe : E) :
    List (E × V) → Option V × ℚ → Option V × ℚ
  | [], acc => acc
  | entry :: rest, acc =>
      let sim := env.cos qe entry.1
      if acc.2 < sim ∧ env.threshold ≤ sim then
        if (95:ℚ)/100 ≤ sim then (some entry.2, sim)
        else semantic_redis_scan env qe rest (some entry.2, sim)
      else semantic_redis_scan env qe rest acc

/-- Lines 141-166: result of the Redis-path semantic lookup (line 164
checks Python truthiness of `best_match`). -/
def semantic_redis_lookup {E V : Type} (env : CacheEnv E V) (qe : E)
    (entries : List (E × V)) : Option V :=
  let best := semantic_redis_scan env qe entries (none, 0)
  match best.1 with
  | some r => if env.truthy r then some r else none
  | none => none

/-- A call against the in-process cache. -/
inductive CacheOp (V : Type) where
  | set (now : ℚ) (prompt : String) (result : V) (task_type temperature : String)
  | get (now : ℚ) (prompt : String) (task_type temperature : String)

/-- State effect of one call. -/
def exec_op {E V : Type} (env : CacheEnv E V) (s : CacheState E V) : CacheOp V → CacheState E V
  | CacheOp.set now p r t temp => set_cached_result env now p r t temp s
  | CacheOp.get now p t temp => (get_cached_result env now p t temp s).2

/-- State after a sequence of calls starting from the empty cache. -/
def exec_ops {E V : Type} (env : CacheEnv E V) (ops : List (CacheOp V)) : CacheState E V :=
  ops.foldl (exec_op env) init_cache

/-! ### Concrete fixtures used by witnesses and counterexamples -/

def ov_report (s : Option ℚ) (st : String) : Report :=
  { tool_name := "Variance/Overfit Detector", status := some st, score := s,
    variance_score := none, details := none, message := "" }

def rt_report (s : Option ℚ) (st : String) : Report :=
  { tool_name := "Synthetic Red Team", status := some st, score := s,
    variance_score := none, details := none, message := "" }

def sm_report (st : String) : Report :=
  { tool_name := "Semantic Boundary Mapper", status := some st, score := none,
    variance_score := none, details := none, message := "" }

def sample_reports_a : List Report :=
  [ov_report (some 55) "PASS", rt_report (some 100) "PASS", sm_report "PASS"]

def sample_reports_b : List Report :=
  [ov_report (some 45) "PASS", rt_report (some 100) "PASS", sm_report "PASS"]

def sample_reports_c : List Report := [ov_report (some 60) "WARN"]

def sample_reports_d : List Report := [ov_report (some 60) "PASS"]

def sample_reports_e : List Report :=
  [ov_report (some 80) "PASS", rt_report (some 70) "PASS", sm_report "PASS"]

/-- A toy parser accepting exactly the text `[1]`. -/
def sample_parse : String → Option ℕ :=
  fun t => if t = "[1]" then some 1 else none

/-- Cache environment used by concrete cache witnesses: identity md5, no
embeddings, integer results with Python truthiness, default threshold. -/
def env_w : CacheEnv Unit ℤ :=
  { enabled := true, md5 := id, get_embedding := fun _ => none,
    cos := fun _ _ => 0, truthy := fun v => v != 0, threshold := default_threshold }

/-- A one-entry exact cache used by the C7 witness: result 7 expiring at
time 10. -/
def st_w : CacheState Unit ℤ :=
  { exact := fun k => if k = { task_type := "t", digest := "d" } then some (7, 10) else none,
    semantic := fun _ => [] }

/-- Cache environment for the C6 scenario: embeddings are rationals and
the cosine of an entry is the stored rational itself. -/
def env_c : CacheEnv ℚ ℤ :=
  { enabled := true, md5 := id, get_embedding := fun _ => none,
    cos := fun _ e => e, truthy := fun v => v != 0, threshold := default_threshold }

/-! ### Claims -/

/-! Concrete report fixtures used by witnesses and counterexamples. -/

/-! Helper evaluation lemmas on the fixtures. -/

theorem sample_a_overfit : overfit_score sample_reports_a = some 55 := by
  simp [overfit_score, find_last_tool, extract_overfit, py_or_opt, sample_reports_a,
    ov_report, rt_report, sm_report]

theorem sample_a_cumulative : cumulative_score sample_reports_a = 73 := by
  simp [cumulative_score, score_and_weights, overfit_score, red_team_score, boundary_status,
    boundary_points, red_team_fallback, find_last_tool, extract_overfit, py_or_opt,
    critical_issues, warnings, sample_reports_a, ov_report, rt_report, sm_report]
  norm_num

theorem sample_a_no_fail : critical_issues sample_reports_a = [] := by
  simp [critical_issues, sample_reports_a, ov_report, rt_report, sm_report]

theorem sample_a_overfit_below : overfit_below sample_reports_a 60 = true := by
  simp [overfit_below, sample_a_overfit]
  norm_num

theorem sample_a_status : overall_status sample_reports_a = "APPROVED_WITH_WARNINGS" := by
  rw [overall_status, sample_a_cumulative, sample_a_no_fail, sample_a_overfit_below]
  norm_num

/-- Bridge: a positive critical-issue count is exactly the existence of a
FAIL report. -/
theorem critical_issues_length_pos (reports : List Report) :
    (critical_issues reports).length > 0 ↔ ∃ r ∈ reports, r.status = some "FAIL" := by
  rw [critical_issues]
  constructor
  · intro h
    obtain ⟨r, hr⟩ := List.exists_mem_of_length_pos h
    have hm := List.mem_filter.mp hr
    exact ⟨r, hm.1, by simpa using hm.2⟩
  · rintro ⟨r, hm, hs⟩
    exact List.length_pos_of_mem (List.mem_filter.mpr ⟨hm, by simp [hs]⟩)

/-- Bridge: `overfit_below` unfolded to an existential. -/
theorem overfit_below_iff (reports : List Report) (x : ℚ) :
    overfit_below reports x = true ↔ ∃ s, overfit_score reports = some s ∧ s < x := by
  rw [overfit_below]
  rcases overfit_score reports with _ | s <;> simp

/-- C1: with all three sub-scores present and the numeric ones in [0,100],
the cumulative score is the 0.6/0.3/0.1 weighted combination, where the
boundary status maps PASS/WARN/other to 100/50/30, and it lies in [0,100]. -/
theorem C1_cumulative_weighted (reports : List Report) (o r : ℚ) (b : String)
    (ho : overfit_score reports = some o) (ho0 : 0 ≤ o) (ho1 : o ≤ 100)
    (hr : red_team_score reports = some r) (hr0 : 0 ≤ r) (hr1 : r ≤ 100)
    (hb : boundary_status reports = some b) :
    cumulative_score reports =
      o * (6/10) + r * (3/10) +
        (if b = "PASS" then (100:ℚ) else if b = "WARN" then 50 else 30) * (1/10) ∧
    0 ≤ cumulative_score reports ∧ cumulative_score reports ≤ 100 := by
  have hbp : boundary_points reports
      = if b = "PASS" then (100:ℚ) else if b = "WARN" then 50 else 30 := by
    rw [boundary_points, hb]
  have hkey : cumulative_score reports
      = o * (6/10) + r * (3/10) + boundary_points reports * (1/10) := by
    simp [cumulative_score, score_and_weights, ho, hr]
    norm_num
  have hbr : (0:ℚ) ≤ boundary_points reports ∧ boundary_points reports ≤ 100 := by
    rw [hbp]; split_ifs <;> norm_num
  refine ⟨by rw [hkey, hbp], ?_, ?_⟩ <;> rw [hkey] <;> linarith [hbr.1, hbr.2]

/-- Witness for C1 at a concrete report list (overfit 80, red team 70,
boundary PASS). -/
theorem C1_cumulative_weighted_witness :
    cumulative_score sample_reports_e =
      80 * (6/10) + 70 * (3/10) +
        (if "PASS" = "PASS" then (100:ℚ) else if "PASS" = "WARN" then 50 else 30) * (1/10) ∧
    0 ≤ cumulative_score sample_reports_e ∧ cumulative_score sample_reports_e ≤ 100 :=
  C1_cumulative_weighted sample_reports_e 80 70 "PASS"
    (by simp [overfit_score, find_last_tool, extract_overfit, py_or_opt, sample_reports_e,
      ov_report, rt_report, sm_report])
    (by norm_num) (by norm_num)
    (by simp [red_team_score, find_last_tool, sample_reports_e, ov_report, rt_report, sm_report])
    (by norm_num) (by norm_num)
    (by simp [boundary_status, find_last_tool, sample_reports_e, ov_report, rt_report, sm_report])

/-- C2 fails as stated: here the cumulative score is 73 ≥ 70 and no report
has status FAIL, yet the overall status is APPROVED_WITH_WARNINGS (the
code also demands an overfit score ≥ 60 for APPROVED), not APPROVED. -/
theorem C2_buckets_counterexample :
    cumulative_score sample_reports_a = 73 ∧
    critical_issues sample_reports_a = [] ∧
    (generate_executive_summary sample_reports_a).overall_status = "APPROVED_WITH_WARNINGS" ∧
    (generate_executive_summary sample_reports_a).overall_status ≠ "APPROVED" := by
  refine ⟨sample_a_cumulative, sample_a_no_fail, ?_, ?_⟩ <;>
    simp [generate_executive_summary, sample_a_status]

/-- C2 amended: REJECTED iff some FAIL report or cumulative < 50;
APPROVED_WITH_WARNINGS iff neither of those and (cumulative < 70 or an
overfit score below 60 is present); APPROVED iff no FAIL, cumulative ≥ 70
and no overfit score below 60. -/
theorem C2_buckets (reports : List Report) :
    (overall_status reports = "REJECTED" ↔
      (∃ r ∈ reports, r.status = some "FAIL") ∨ cumulative_score reports < 50) ∧
    (overall_status reports = "APPROVED_WITH_WARNINGS" ↔
      ¬(∃ r ∈ reports, r.status = some "FAIL") ∧ 50 ≤ cumulative_score reports ∧
      (cumulative_score reports < 70 ∨ ∃ s, overfit_score reports = some s ∧ s < 60)) ∧
    (overall_status reports = "APPROVED" ↔
      ¬(∃ r ∈ reports, r.status = some "FAIL") ∧ 70 ≤ cumulative_score reports ∧
      ¬∃ s, overfit_score reports = some s ∧ s < 60) := by
  have hcrit := critical_issues_length_pos reports
  have hov := overfit_below_iff reports 60
  rw [overall_status]
  by_cases h1 : (critical_issues reports).length > 0 ∨ cumulative_score reports < 50
  · rw [if_pos h1]
    have h1' : (∃ r ∈ reports, r.status = some "FAIL") ∨ cumulative_score reports < 50 := by
      rcases h1 with h | h
      · exact Or.inl (hcrit.mp h)
      · exact Or.inr h
    refine ⟨⟨fun _ => h1', fun _ => rfl⟩, ?_, ?_⟩
    · constructor
      · intro h; exact absurd h (by decide)
      · rintro ⟨hno, h50, _⟩
        rcases h1' with h | h
        · exact absurd h hno
        · linarith
    · constructor
      · intro h; exact absurd h (by decide)
      · rintro ⟨hno, h70, _⟩
        rcases h1' with h | h
        · exact absurd h hno
        · linarith
  · have hnofail : ¬∃ r ∈ reports, r.status = some "FAIL" :=
      fun h => (not_or.mp h1).1 (hcrit.mpr h)
    have h50 : 50 ≤ cumulative_score reports := le_of_not_lt (not_or.mp h1).2
    rw [if_neg h1]
    by_cases h2 : cumulative_score reports < 70 ∨ overfit_below reports 60 = true
    · rw [if_pos h2]
      have h2' : cumulative_score reports < 70 ∨ ∃ s, overfit_score reports = some s ∧ s < 60 := by
        rcases h2 with h | h
        · exact Or.inl h
        · exact Or.inr (hov.mp h)
      refine ⟨?_, ⟨fun _ => ⟨hnofail, h50, h2'⟩, fun _ => rfl⟩, ?_⟩
      · constructor
        · intro h; exact absurd h (by decide)
        · rintro (h | h)
          · exact absurd h hnofail
          · linarith
      · constructor
        · intro h; exact absurd h (by decide)
        · rintro ⟨_, h70, hno60⟩
          rcases h2' with h | h
          · linarith
          · exact absurd h hno60
    · rw [if_neg h2]
      have h70 : 70 ≤ cumulative_score reports := le_of_not_lt (fun h => h2 (Or.inl h))
      have hno60 : ¬∃ s, overfit_score reports = some s ∧ s < 60 :=
        fun h => h2 (Or.inr (hov.mpr h))
      refine ⟨?_, ?_, ⟨fun _ => ⟨hnofail, h70, hno60⟩, fun _ => rfl⟩⟩
      · constructor
        · intro h; exact absurd h (by decide)
        · rintro (h | h)
          · exact absurd h hnofail
          · linarith
      · constructor
        · intro h; exact absurd h (by decide)
        · rintro ⟨_, h50b, h | h⟩
          · linarith
          · exact absurd h hno60

/-! Helper evaluation lemmas for sample_reports_b/c/d. -/

theorem sample_b_overfit : overfit_score sample_reports_b = some 45 := by
  simp [overfit_score, find_last_tool, extract_overfit, py_or_opt, sample_reports_b,
    ov_report, rt_report, sm_report]

theorem sample_b_cumulative : cumulative_score sample_reports_b = 67 := by
  simp [cumulative_score, score_and_weights, overfit_score, red_team_score, boundary_status,
    boundary_points, red_team_fallback, find_last_tool, extract_overfit, py_or_opt,
    critical_issues, warnings, sample_reports_b, ov_report, rt_report, sm_report]
  norm_num

theorem sample_b_no_fail : critical_issues sample_reports_b = [] := by
  simp [critical_issues, sample_reports_b, ov_report, rt_report, sm_report]

theorem sample_b_status : overall_status sample_reports_b = "APPROVED_WITH_WARNINGS" := by
  have hb : overfit_below sample_reports_b 60 = true := by
    simp [overfit_below, sample_b_overfit]
    norm_num
  rw [overall_status, sample_b_cumulative, sample_b_no_fail, hb]
  norm_num

/-- C3 fails as stated: overfit score 45 < 50, yet the audit is not
rejected (the overall status is APPROVED_WITH_WARNINGS, since the
cumulative score 67 is ≥ 50 and no report failed); only the
recommendation text is overridden. -/
theorem C3_override_counterexample :
    overfit_score sample_reports_b = some 45 ∧ (45:ℚ) < 50 ∧
    (generate_executive_summary sample_reports_b).overall_status = "APPROVED_WITH_WARNINGS" ∧
    (generate_executive_summary sample_reports_b).overall_status ≠ "REJECTED" := by
  refine ⟨sample_b_overfit, by norm_num, ?_, ?_⟩ <;>
    simp [generate_executive_summary, sample_b_status]

/-- C3 amended: when the overfit sub-score is present, a value below 50
forces the rejection recommendation text regardless of the cumulative
score (the overall status is not changed), and a value ≥ 80 together with
cumulative ≥ 75 forces the strongly-recommended text. -/
theorem C3_overfit_overrides (reports : List Report) (s : ℚ)
    (h : overfit_score reports = some s) :
    (s < 50 → recommendation reports = rec_low_overfit) ∧
    (80 ≤ s → 75 ≤ cumulative_score reports → recommendation reports = rec_strong) := by
  constructor
  · intro hs
    simp [recommendation, h, hs]
  · intro h80 h75
    have hns : ¬ s < 50 := by linarith
    simp [recommendation, h, hns, h80, h75]

/-- Witness for C3 amended: the overfit score 45 < 50 forces the rejection
recommendation on `sample_reports_b`. -/
theorem C3_overfit_overrides_witness :
    (45:ℚ) < 50 ∧ recommendation sample_reports_b = rec_low_overfit :=
  ⟨by norm_num, (C3_overfit_overrides sample_reports_b 45 sample_b_overfit).1 (by norm_num)⟩

theorem sample_c_red_team : red_team_score sample_reports_c = none := by
  simp [red_team_score, find_last_tool, sample_reports_c, ov_report]

theorem sample_d_red_team : red_team_score sample_reports_d = none := by
  simp [red_team_score, find_last_tool, sample_reports_d, ov_report]

theorem sample_c_cumulative : cumulative_score sample_reports_c = 54 := by
  simp [cumulative_score, score_and_weights, overfit_score, red_team_score, boundary_status,
    boundary_points, red_team_fallback, find_last_tool, extract_overfit, py_or_opt,
    critical_issues, warnings, sample_reports_c, ov_report]
  norm_num

theorem sample_d_cumulative : cumulative_score sample_reports_d = 63 := by
  simp [cumulative_score, score_and_weights, overfit_score, red_team_score, boundary_status,
    boundary_points, red_team_fallback, find_last_tool, extract_overfit, py_or_opt,
    critical_issues, warnings, sample_reports_d, ov_report]
  norm_num

/-- C4 fails as stated: two report lists with the same present sub-scores
(overfit 60, red team missing, boundary missing) get different imputed
red-team values (50 under a WARN status, 80 under PASS), so the fallback
is not a fixed constant. -/
theorem C4_imputation_counterexample :
    red_team_score sample_reports_c = none ∧
    red_team_score sample_reports_d = none ∧
    overfit_score sample_reports_c = overfit_score sample_reports_d ∧
    boundary_status sample_reports_c = boundary_status sample_reports_d ∧
    cumulative_score sample_reports_c = 54 ∧
    cumulative_score sample_reports_d = 63 := by
  refine ⟨sample_c_red_team, sample_d_red_team, ?_, ?_, sample_c_cumulative, sample_d_cumulative⟩
  · simp [overfit_score, find_last_tool, extract_overfit, py_or_opt, sample_reports_c,
      sample_reports_d, ov_report]
  · simp [boundary_status, find_last_tool, sample_reports_c, sample_reports_d, ov_report]

/-- C4 amended: every missing sub-score is imputed, never excluded — a
missing overfit score as the fixed constant 30, a missing red-team score
as the status-dependent fallback (50 with a WARN report, else 30 with a
FAIL report, else 80), a missing boundary status as 30 points — and all
three weights are always applied, summing to 1, so the final division
never renormalizes. -/
theorem C4_imputation (reports : List Report) :
    (score_and_weights reports).2 = 1 ∧
    cumulative_score reports =
      (overfit_score reports).getD 30 * (6/10) +
      (red_team_score reports).getD (red_team_fallback reports) * (3/10) +
      boundary_points reports * (1/10) := by
  rcases hov : overfit_score reports with _ | o <;>
    rcases hrt : red_team_score reports with _ | r <;>
      refine ⟨by simp [score_and_weights, hov, hrt]; norm_num, ?_⟩ <;>
        simp [cumulative_score, score_and_weights, hov, hrt] <;> norm_num

/-- Folding with append is mapping: an exception in one tool never
prevents the remaining tools from contributing their reports. -/
theorem run_tools_eq_map (outcomes : List (String × Except String Report)) :
    run_tools outcomes = outcomes.map (fun t => resolve_tool t.1 t.2) := by
  have h : ∀ acc, outcomes.foldl (fun reports t => reports ++ [resolve_tool t.1 t.2]) acc
      = acc ++ outcomes.map (fun t => resolve_tool t.1 t.2) := by
    induction outcomes with
    | nil => intro acc; simp
    | cons hd tl ih => intro acc; simp [ih, List.append_assoc]
  simpa using h []

/-- C8: the audit runs the three tools in the fixed order RedTeamTool,
OverfitDetectorTool, SemanticMapperTool and always returns exactly three
reports, the i-th determined by the i-th tool's outcome alone; an
exception becomes a WARN report carrying the tool's class name and the
error message, in place. -/
theorem C8_audit_rule_reports (rule : String) (outcome : String → Except String Report) :
    (audit_rule rule outcome).reports.length = 3 ∧
    (audit_rule rule outcome).reports =
      [resolve_tool "RedTeamTool" (outcome "RedTeamTool"),
       resolve_tool "OverfitDetectorTool" (outcome "OverfitDetectorTool"),
       resolve_tool "SemanticMapperTool" (outcome "SemanticMapperTool")] ∧
    (∀ name e, resolve_tool name (Except.error e) =
      { tool_name := name, status := some "WARN", score := none, variance_score := none,
        details := none, message := "Error: " ++ e }) ∧
    (∀ name r, resolve_tool name (Except.ok r) = r) := by
  have hlist : (audit_rule rule outcome).reports =
      [resolve_tool "RedTeamTool" (outcome "RedTeamTool"),
       resolve_tool "OverfitDetectorTool" (outcome "OverfitDetectorTool"),
       resolve_tool "SemanticMapperTool" (outcome "SemanticMapperTool")] := by
    simp [audit_rule, audit_rule_reports, run_tools_eq_map, commander_tool_names]
  refine ⟨by rw [hlist]; rfl, hlist, fun name e => rfl, fun name r => rfl⟩

/-! Whitespace-stripping lemmas for the fence normalization. -/

theorem lstrip_cons_of_space {c : Char} (l : List Char) (h : py_is_space c = true) :
    lstrip_chars (c :: l) = lstrip_chars l := by
  simp [lstrip_chars, List.dropWhile_cons, h]

theorem lstrip_append_of_ne_nil (l m : List Char) (h : lstrip_chars l ≠ []) :
    lstrip_chars (l ++ m) = lstrip_chars l ++ m := by
  induction l with
  | nil => exact absurd rfl h
  | cons c l ih =>
      by_cases hc : py_is_space c = true
      · have h' : lstrip_chars l ≠ [] := by rwa [lstrip_cons_of_space l hc] at h
        rw [List.cons_append, lstrip_cons_of_space (l ++ m) hc, lstrip_cons_of_space l hc, ih h']
      · simp [lstrip_chars, List.dropWhile_cons, hc]

theorem rstrip_append_of_space {c : Char} (l : List Char) (h : py_is_space c = true) :
    rstrip_chars (l ++ [c]) = rstrip_chars l := by
  simp [rstrip_chars, List.reverse_append, List.dropWhile_cons, h]

theorem py_strip_cons_of_space {c : Char} (l : List Char) (h : py_is_space c = true) :
    py_strip (c :: l) = py_strip l := by
  simp [py_strip, lstrip_cons_of_space l h]

theorem py_strip_append_of_space {c : Char} (l : List Char) (h : py_is_space c = true) :
    py_strip (l ++ [c]) = py_strip l := by
  by_cases hl : lstrip_chars l = []
  · have h1 : lstrip_chars (l ++ [c]) = [] := by
      rw [lstrip_chars, List.dropWhile_eq_nil_iff]
      intro x hx
      rcases List.mem_append.mp hx with hx | hx
      · rw [lstrip_chars] at hl
        exact List.dropWhile_eq_nil_iff.mp hl x hx
      · rw [List.mem_singleton.mp hx]
        exact h
    rw [py_strip, py_strip, hl, h1]
  · rw [py_strip, lstrip_append_of_ne_nil l [c] hl, rstrip_append_of_space _ h, py_strip]

theorem lstrip_no_space_head (c : Char) (l : List Char) (h : py_is_space c = false) :
    lstrip_chars (c :: l) = c :: l := by
  simp [lstrip_chars, List.dropWhile_cons, h]

theorem rstrip_no_space_last (c : Char) (l : List Char) (h : py_is_space c = false) :
    rstrip_chars (l ++ [c]) = l ++ [c] := by
  simp [rstrip_chars, List.reverse_append, List.dropWhile_cons, h]

/-- Stripping the fences of a fenced payload yields the stripped payload. -/
theorem strip_fenced (s : List Char) :
    strip_code_fences (['`','`','`','j','s','o','n','\n'] ++ (s ++ ['\n','`','`','`'])) =
      py_strip s := by
  have hA : py_strip (['`','`','`','j','s','o','n','\n'] ++ (s ++ ['\n','`','`','`']))
      = ['`','`','`','j','s','o','n','\n'] ++ (s ++ ['\n','`','`','`']) := by
    rw [py_strip]
    have h1 : lstrip_chars (['`','`','`','j','s','o','n','\n'] ++ (s ++ ['\n','`','`','`']))
        = ['`','`','`','j','s','o','n','\n'] ++ (s ++ ['\n','`','`','`']) := by
      simp [lstrip_chars, List.dropWhile_cons, py_is_space]
    rw [h1, rstrip_chars]
    have h2 : List.dropWhile py_is_space
        ((['`','`','`','j','s','o','n','\n'] ++ (s ++ ['\n','`','`','`'])).reverse)
        = (['`','`','`','j','s','o','n','\n'] ++ (s ++ ['\n','`','`','`'])).reverse := by
      simp [List.reverse_append, List.dropWhile_cons, py_is_space]
    rw [h2, List.reverse_reverse]
  have hpre : starts_with "```json".data
      (['`','`','`','j','s','o','n','\n'] ++ (s ++ ['\n','`','`','`'])) = true := by
    simp [starts_with]
  have hdrop : (['`','`','`','j','s','o','n','\n'] ++ (s ++ ['\n','`','`','`'])).drop 7
      = '\n' :: (s ++ ['\n','`','`','`']) := by
    simp
  have hpre2 : starts_with "```".data ('\n' :: (s ++ ['\n','`','`','`'])) = false := by
    simp [starts_with]
  have hsuf : ends_with "```".data ('\n' :: (s ++ ['\n','`','`','`'])) = true := by
    simp [ends_with, starts_with, List.reverse_append]
  have hlen : ('\n' :: (s ++ ['\n','`','`','`'])).length - 3 = s.length + 2 := by
    simp
  have htake : ('\n' :: (s ++ ['\n','`','`','`'])).take (s.length + 2)
      = '\n' :: (s ++ ['\n']) := by
    simp [List.take_append_eq_append_take]
  rw [strip_code_fences, hA]
  simp only [hpre, hdrop, hpre2, hsuf, hlen, htake, if_true, Bool.false_eq_true, if_false]
  rw [py_strip_cons_of_space (s ++ ['\n']) (by decide), py_strip_append_of_space s (by decide)]

/-- C9: `generate_json` appends the JSON-only instruction to every prompt;
a response text that parses is returned parsed as-is; otherwise markdown
code fences are stripped and parsing retried, so a response that is fenced
valid JSON is returned parsed; an error is raised only when the text still
fails to parse after fence stripping. -/
theorem C9_generate_json_normalizes {J : Type} (parse : String → Option J) :
    (∀ p : String, json_prompt p = p ++ "\n\nReturn only valid JSON, no other text.") ∧
    (∀ (text : String) (v : J), parse text = some v →
      parse_json_response parse text = Except.ok v) ∧
    (∀ (text : String) (v : J), parse text = none →
      parse (String.mk (strip_code_fences text.data)) = some v →
      parse_json_response parse text = Except.ok v) ∧
    (∀ text : String, parse text = none →
      parse (String.mk (strip_code_fences text.data)) = none →
      parse_json_response parse text = Except.error "Failed to parse JSON response") ∧
    (∀ s : String, strip_code_fences ("```json\n" ++ s ++ "\n```").data = py_strip s.data) := by
  refine ⟨fun p => rfl, ?_, ?_, ?_, ?_⟩
  · intro text v h
    simp [parse_json_response, h]
  · intro text v h1 h2
    simp [parse_json_response, h1, h2]
  · intro text h1 h2
    simp [parse_json_response, h1, h2]
  · intro s
    have hd : ("```json\n" ++ s ++ "\n```").data
        = ['`','`','`','j','s','o','n','\n'] ++ (s.data ++ ['\n','`','`','`']) := by
      rw [String.data_append, String.data_append]
      rfl
    rw [hd, strip_fenced]

/-- Witness for C9: a fenced response is normalized and parsed. -/
theorem C9_generate_json_normalizes_witness :
    parse_json_response sample_parse "```json\n[1]\n```" = Except.ok 1 :=
  (C9_generate_json_normalizes sample_parse).2.2.1 "```json\n[1]\n```" 1
    (by decide) (by decide)

/-- With caching enabled, `set_cached_result` writes the exact entry
`(result, now + ttl)` under the triple's exact key. -/
theorem set_writes_exact {E V : Type} (env : CacheEnv E V) (now : ℚ) (p : String) (r : V)
    (task temp : String) (s : CacheState E V) (hen : env.enabled = true) :
    (set_cached_result env now p r task temp s).exact (get_exact_cache_key env.md5 p task temp)
      = some (r, now + get_cache_ttl task) := by
  rw [set_cached_result, hen]
  rcases env.get_embedding p with _ | e <;> simp

/-- C10: with caching enabled and the in-memory backend, a get with the
same prompt, task type and temperature issued before the entry's TTL
expires returns exactly the stored result, via the exact-match tier. -/
theorem C10_set_then_get {E V : Type} (env : CacheEnv E V) (now t : ℚ)
    (prompt task temp : String) (result : V) (s : CacheState E V)
    (hen : env.enabled = true) (hfresh : t < now + get_cache_ttl task) :
    (get_cached_result env t prompt task temp
        (set_cached_result env now prompt result task temp s)).1 = some result := by
  have hw := set_writes_exact env now prompt result task temp s hen
  rw [get_cached_result, hen]
  simp [exact_memory_lookup, hw, hfresh]

/-- Witness for C10: storing 5 under ("p", "default", "0.7") at time 0 and
reading it back at time 1 returns 5. -/
theorem C10_set_then_get_witness :
    (get_cached_result env_w 1 "p" "default" "0.7"
        (set_cached_result env_w 0 "p" (5:ℤ) "default" "0.7" init_cache)).1 = some 5 :=
  C10_set_then_get env_w 0 1 "p" "default" "0.7" 5 init_cache rfl
    (by rw [show get_cache_ttl "default" = 86400 from by decide]; norm_num)

/-- Splitting at the last bar: when the suffixes hold no `|`, the parts of
`a ++ | ++ s1 = b ++ | ++ s2` agree. -/
theorem bar_split : ∀ (a b s1 s2 : List Char),
    (∀ c ∈ s1, c ≠ '|') → (∀ c ∈ s2, c ≠ '|') →
    a ++ '|' :: s1 = b ++ '|' :: s2 → a = b ∧ s1 = s2
  | [], [], s1, s2, _, _, h => ⟨rfl, by simpa using h⟩
  | [], c :: b, s1, s2, h1, _, h => by
      simp only [List.nil_append, List.cons_append, List.cons.injEq] at h
      obtain ⟨hc, hs⟩ := h
      have hmem : '|' ∈ s1 := by
        rw [hs]
        exact List.mem_append_right b (List.mem_cons_self '|' s2)
      exact absurd rfl (h1 '|' hmem)
  | c :: a, [], s1, s2, _, h2, h => by
      simp only [List.nil_append, List.cons_append, List.cons.injEq] at h
      obtain ⟨hc, hs⟩ := h
      have hmem : '|' ∈ s2 := by
        rw [← hs]
        exact List.mem_append_right a (List.mem_cons_self '|' s1)
      exact absurd rfl (h2 '|' hmem)
  | c :: a, d :: b, s1, s2, h1, h2, h => by
      simp only [List.cons_append, List.cons.injEq] at h
      obtain ⟨rfl, htl⟩ := h
      obtain ⟨hab, hs⟩ := bar_split a b s1 s2 h1 h2 htl
      exact ⟨by rw [hab], hs⟩

/-- `bar_free` spelled out. -/
theorem bar_free_iff (s : String) :
    bar_free s = true ↔ ∀ c ∈ s.data, c ≠ '|' := by
  simp [bar_free, List.all_eq_true]

/-- The pre-hash payload, together with the task type, determines the
triple: `prompt|task_type|temperature` splits uniquely at its last two
bars because the temperature rendering is bar-free. -/
theorem exact_key_payload_inj (p₁ t p₂ : String) (τ₁ τ₂ : String)
    (hb₁ : bar_free τ₁ = true) (hb₂ : bar_free τ₂ = true)
    (h : exact_key_payload p₁ t τ₁ = exact_key_payload p₂ t τ₂) :
    p₁ = p₂ ∧ τ₁ = τ₂ := by
  have hd : (p₁.data ++ '|' :: t.data) ++ '|' :: τ₁.data
      = (p₂.data ++ '|' :: t.data) ++ '|' :: τ₂.data := by
    have := congrArg String.data h
    simp only [exact_key_payload, String.data_append] at this
    simpa [List.append_assoc] using this
  obtain ⟨hpt, hτ⟩ := bar_split _ _ _ _ ((bar_free_iff τ₁).mp hb₁) ((bar_free_iff τ₂).mp hb₂) hd
  refine ⟨String.ext (List.append_cancel_right hpt), String.ext hτ⟩

/-- C5: under an injective hash, the exact cache key is a deterministic
function of the triple — equal triples give equal keys — and any change to
prompt, task type or temperature gives a different key, so a lookup with
the changed triple misses an exact-match entry stored under the original
one. -/
theorem C5_exact_key_separates (md5 : String → String) (hinj : Function.Injective md5)
    (p₁ t₁ τ₁ p₂ t₂ τ₂ : String)
    (hb₁ : bar_free τ₁ = true) (hb₂ : bar_free τ₂ = true) :
    (get_exact_cache_key md5 p₁ t₁ τ₁ = get_exact_cache_key md5 p₂ t₂ τ₂ ↔
      p₁ = p₂ ∧ t₁ = t₂ ∧ τ₁ = τ₂) ∧
    (¬(p₁ = p₂ ∧ t₁ = t₂ ∧ τ₁ = τ₂) →
      ∀ (V : Type) (v : V) (exp now : ℚ),
        (exact_memory_lookup (E := Unit)
          { exact := fun k => if k = get_exact_cache_key md5 p₁ t₁ τ₁ then some (v, exp) else none,
            semantic := fun _ => [] }
          (get_exact_cache_key md5 p₂ t₂ τ₂) now).1 = none) := by
  have hiff : get_exact_cache_key md5 p₁ t₁ τ₁ = get_exact_cache_key md5 p₂ t₂ τ₂ ↔
      p₁ = p₂ ∧ t₁ = t₂ ∧ τ₁ = τ₂ := by
    constructor
    · intro h
      have ht : t₁ = t₂ := congrArg ExactKey.task_type h
      have hdig : md5 (exact_key_payload p₁ t₁ τ₁) = md5 (exact_key_payload p₂ t₂ τ₂) :=
        congrArg ExactKey.digest h
      subst ht
      obtain ⟨hp, hτ⟩ := exact_key_payload_inj p₁ t₁ p₂ τ₁ τ₂ hb₁ hb₂ (hinj hdig)
      exact ⟨hp, rfl, hτ⟩
    · rintro ⟨rfl, rfl, rfl⟩
      rfl
  refine ⟨hiff, fun hne V v exp now => ?_⟩
  have hkey : get_exact_cache_key md5 p₂ t₂ τ₂ ≠ get_exact_cache_key md5 p₁ t₁ τ₁ :=
    fun h => hne (hiff.mp h.symm)
  simp [exact_memory_lookup, hkey]

/-- Witness for C5: changing only the temperature ("0.7" to "0.9") misses
the entry stored under the original triple. -/
theorem C5_exact_key_separates_witness :
    (exact_memory_lookup (E := Unit)
      { exact := fun k => if k = get_exact_cache_key id "p" "t" "0.7" then some ((3:ℤ), (10:ℚ)) else none,
        semantic := fun _ => [] }
      (get_exact_cache_key id "p" "t" "0.9") 0).1 = none :=
  (C5_exact_key_separates id (fun _ _ h => h) "p" "t" "0.7" "p" "t" "0.9"
      (by decide) (by decide)).2 (by decide) ℤ 3 10 0

/-- The exact tier never modifies the semantic side. -/
theorem exact_lookup_semantic_unchanged {E V : Type} (s : CacheState E V)
    (key : ExactKey) (now : ℚ) :
    ((exact_memory_lookup s key now).2).semantic = s.semantic := by
  rw [exact_memory_lookup]
  rcases s.exact key with _ | rv
  · rfl
  · dsimp only
    split_ifs <;> rfl

/-- A get never modifies the semantic side of the in-process cache. -/
theorem get_semantic_unchanged {E V : Type} (env : CacheEnv E V) (now : ℚ)
    (p task temp : String) (s : CacheState E V) :
    ((get_cached_result env now p task temp s).2).semantic = s.semantic := by
  have hel := exact_lookup_semantic_unchanged s (get_exact_cache_key env.md5 p task temp) now
  rw [get_cached_result]
  split_ifs
  · rfl
  · dsimp only
    rcases h1 : (exact_memory_lookup s (get_exact_cache_key env.md5 p task temp) now).1 with _ | r
    · simp only [h1]
      rcases h2 : env.get_embedding p with _ | qe
      · exact hel
      · simp only [h2]
        rcases h3 : (semantic_memory_scan env qe
            (((exact_memory_lookup s (get_exact_cache_key env.md5 p task temp) now).2).semantic
              task)).1 with _ | r
        · simp only [h3]
          exact hel
        · simp only [h3]
          split_ifs <;> exact hel
    · simp only [h1]
      exact hel

/-- A set keeps every semantic partition within the 100-entry bound. -/
theorem set_semantic_bound {E V : Type} (env : CacheEnv E V) (now : ℚ) (p : String)
    (r : V) (task temp : String) (s : CacheState E V)
    (hbound : ∀ u, (s.semantic u).length ≤ 100) :
    ∀ u, ((set_cached_result env now p r task temp s).semantic u).length ≤ 100 := by
  intro u
  rw [set_cached_result]
  split_ifs with hen
  · exact hbound u
  · rcases hemb : env.get_embedding p with _ | e
    · simp only [hemb]
      exact hbound u
    · simp only [hemb]
      by_cases hu : u = task
      · subst hu
        rw [if_pos rfl]
        have hb := hbound u
        by_cases hlen : (s.semantic u ++ [(env.md5 p, e, r)]).length > 100
        · rw [if_pos hlen]
          simp only [List.length_append, List.length_cons, List.length_nil, gt_iff_lt] at hlen
          simp only [List.length_drop, List.length_append, List.length_cons, List.length_nil]
          omega
        · rw [if_neg hlen]
          simp only [List.length_append, List.length_cons, List.length_nil, gt_iff_lt,
            not_lt] at hlen
          simp only [List.length_append, List.length_cons, List.length_nil]
          omega
      · simp only [if_neg hu]
        exact hbound u

/-- Bound preservation over any operation sequence. -/
theorem exec_ops_semantic_bound {E V : Type} (env : CacheEnv E V)
    (ops : List (CacheOp V)) :
    ∀ u, ((exec_ops env ops).semantic u).length ≤ 100 := by
  suffices h : ∀ (ops : List (CacheOp V)) (s : CacheState E V),
      (∀ u, (s.semantic u).length ≤ 100) →
      ∀ u, ((ops.foldl (exec_op env) s).semantic u).length ≤ 100 by
    exact h ops init_cache (fun u => by simp [init_cache])
  intro ops
  induction ops with
  | nil => intro s hs; exact hs
  | cons op ops ih =>
      intro s hs
      refine ih (exec_op env s op) ?_
      cases op with
      | set now p r task temp => exact set_semantic_bound env now p r task temp s hs
      | get now p task temp =>
          intro u
          rw [exec_op, get_semantic_unchanged]
          exact hs u

/-- The state left behind by a get is exactly the state left by its exact
tier: the semantic tier never mutates. -/
theorem get_state_eq {E V : Type} (env : CacheEnv E V) (now : ℚ)
    (p task temp : String) (s : CacheState E V) :
    (get_cached_result env now p task temp s).2 =
      if env.enabled = false then s
      else (exact_memory_lookup s (get_exact_cache_key env.md5 p task temp) now).2 := by
  rw [get_cached_result]
  split_ifs with hen
  · rfl
  · dsimp only
    rcases h1 : (exact_memory_lookup s (get_exact_cache_key env.md5 p task temp) now).1
        with _ | r
    · simp only [h1]
      rcases hemb : env.get_embedding p with _ | qe
      · simp only [hemb]
      · simp only [hemb]
        rcases hscan : (semantic_memory_scan env qe
            (((exact_memory_lookup s (get_exact_cache_key env.md5 p task temp) now).2).semantic
              task)).1 with _ | r
        · simp only [hscan]
        · simp only [hscan]
          split_ifs <;> rfl
    · simp only [h1]

/-- C7: across every sequence of set/get calls each task-type partition of
the in-memory semantic cache holds at most 100 entries, with the oldest
entry evicted when the bound would be exceeded; and the exact tier never
returns an expired entry — a hit implies the entry is still fresh, and an
expired entry is deleted from the post-get state and not returned. -/
theorem C7_cache_invariants_hold {E V : Type} (env : CacheEnv E V) :
    (∀ (ops : List (CacheOp V)) (u : String),
      ((exec_ops env ops).semantic u).length ≤ 100) ∧
    (∀ (s : CacheState E V) (now : ℚ) (p : String) (r : V) (task temp : String) (e : E),
      env.enabled = true → env.get_embedding p = some e →
      100 ≤ (s.semantic task).length →
      (set_cached_result env now p r task temp s).semantic task
        = (s.semantic task).drop 1 ++ [(env.md5 p, e, r)]) ∧
    (∀ (s : CacheState E V) (key : ExactKey) (now : ℚ) (r : V),
      (exact_memory_lookup s key now).1 = some r →
      ∃ exp, s.exact key = some (r, exp) ∧ now < exp) ∧
    (∀ (s : CacheState E V) (key : ExactKey) (now : ℚ) (rv : V × ℚ),
      s.exact key = some rv → rv.2 ≤ now →
      (exact_memory_lookup s key now).1 = none ∧
      ((exact_memory_lookup s key now).2).exact key = none) ∧
    (∀ (s : CacheState E V) (now : ℚ) (p task temp : String) (rv : V × ℚ),
      env.enabled = true →
      s.exact (get_exact_cache_key env.md5 p task temp) = some rv → rv.2 ≤ now →
      ((get_cached_result env now p task temp s).2).exact
        (get_exact_cache_key env.md5 p task temp) = none) := by
  have hremove : ∀ (s : CacheState E V) (key : ExactKey) (now : ℚ) (rv : V × ℚ),
      s.exact key = some rv → rv.2 ≤ now →
      (exact_memory_lookup s key now).1 = none ∧
      ((exact_memory_lookup s key now).2).exact key = none := by
    intro s key now rv hk hexp
    rw [exact_memory_lookup, hk]
    dsimp only
    rw [if_neg (not_lt.mpr hexp)]
    exact ⟨rfl, by simp⟩
  refine ⟨fun ops u => exec_ops_semantic_bound env ops u, ?_, ?_, hremove, ?_⟩
  · intro s now p r task temp e hen hemb hfull
    have hgt : (s.semantic task ++ [(env.md5 p, e, r)]).length > 100 := by
      simp only [List.length_append, List.length_cons, List.length_nil]
      omega
    rw [set_cached_result, hen, if_neg (show ¬(true = false) by decide)]
    simp only [hemb]
    rw [if_pos trivial, if_pos hgt, List.drop_append_of_le_length (by omega)]
  · intro s key now r h
    rcases hk : s.exact key with _ | rv
    · rw [exact_memory_lookup, hk] at h
      exact absurd h (by simp)
    · rw [exact_memory_lookup, hk] at h
      dsimp only at h
      by_cases hfresh : now < rv.2
      · rw [if_pos hfresh] at h
        have hr : rv.1 = r := by simpa using h
        exact ⟨rv.2, by rw [← hr], hfresh⟩
      · rw [if_neg hfresh] at h
        exact absurd h (by simp)
  · intro s now p task temp rv hen hk hexp
    rw [get_state_eq, if_neg (by rw [hen]; exact (by decide : ¬(true = false)))]
    exact (hremove s (get_exact_cache_key env.md5 p task temp) now rv hk hexp).2

/-- Witness for C7: a hit at time 3 is fresh, and at time 12 the expired
entry is not returned and is removed. -/
theorem C7_cache_invariants_hold_witness :
    (∃ exp, st_w.exact { task_type := "t", digest := "d" } = some (7, exp) ∧ (3:ℚ) < exp) ∧
    ((exact_memory_lookup st_w { task_type := "t", digest := "d" } 12).1 = none ∧
      ((exact_memory_lookup st_w { task_type := "t", digest := "d" } 12).2).exact
        { task_type := "t", digest := "d" } = none) :=
  ⟨(C7_cache_invariants_hold env_w).2.2.1 st_w { task_type := "t", digest := "d" } 3 7
      (by simp [exact_memory_lookup, st_w]; norm_num),
   (C7_cache_invariants_hold env_w).2.2.2.1 st_w { task_type := "t", digest := "d" } 12 (7, 10)
      (by simp [st_w]) (by norm_num)⟩

/-- Specification of the in-memory scan fold: the result is the initial
accumulator or an accepted entry; the best similarity never decreases; and
every entry at or above the threshold ends up at or below the final best
similarity (the scan keeps the maximum, with no early exit). -/
theorem scan_fold_spec {E V : Type} (env : CacheEnv E V) (qe : E) :
    ∀ (entries : List (String × E × V)) (acc : Option V × ℚ),
      (entries.foldl (scan_step env qe) acc = acc ∨
        ∃ p, p ∈ entries ∧
          entries.foldl (scan_step env qe) acc = (some p.2.2, env.cos qe p.2.1) ∧
          env.threshold ≤ env.cos qe p.2.1) ∧
      acc.2 ≤ (entries.foldl (scan_step env qe) acc).2 ∧
      (∀ p ∈ entries, env.threshold ≤ env.cos qe p.2.1 →
        env.cos qe p.2.1 ≤ (entries.foldl (scan_step env qe) acc).2) := by
  intro entries
  induction entries with
  | nil => exact fun acc => ⟨Or.inl rfl, le_refl _, by simp⟩
  | cons hd tl ih =>
      intro acc
      rw [List.foldl_cons]
      by_cases hc : acc.2 < env.cos qe hd.2.1 ∧ env.threshold ≤ env.cos qe hd.2.1
      · rcases ih (scan_step env qe acc hd) with ⟨hres, hmono, hmax⟩
        have hstep : scan_step env qe acc hd = (some hd.2.2, env.cos qe hd.2.1) := by
          rw [scan_step, if_pos hc]
        refine ⟨?_, ?_, ?_⟩
        · rcases hres with heq | ⟨p, hp, heq, hth⟩
          · exact Or.inr ⟨hd, List.mem_cons_self hd tl, by rw [heq, hstep], hc.2⟩
          · exact Or.inr ⟨p, List.mem_cons_of_mem hd hp, heq, hth⟩
        · have h1 : acc.2 ≤ (scan_step env qe acc hd).2 := by
            rw [hstep]
            exact le_of_lt hc.1
          exact le_trans h1 hmono
        · intro p hp hth
          rcases List.mem_cons.mp hp with rfl | hp
          · have h1 : env.cos qe p.2.1 = (scan_step env qe acc p).2 := by rw [hstep]
            exact h1 ▸ hmono
          · exact hmax p hp hth
      · have hstep : scan_step env qe acc hd = acc := by rw [scan_step, if_neg hc]
        rw [hstep]
        rcases ih acc with ⟨hres, hmono, hmax⟩
        refine ⟨?_, hmono, ?_⟩
        · rcases hres with heq | ⟨p, hp, heq, hth⟩
          · exact Or.inl heq
          · exact Or.inr ⟨p, List.mem_cons_of_mem hd hp, heq, hth⟩
        · intro p hp hth
          rcases List.mem_cons.mp hp with rfl | hp
          · have hle : ¬ acc.2 < env.cos qe p.2.1 := fun hlt => hc ⟨hlt, hth⟩
            exact le_trans (not_lt.mp hle) hmono
          · exact hmax p hp hth

/-- Specification of the Redis scan: the result is the initial accumulator
or carries an accepted entry's result and similarity. -/
theorem semantic_redis_scan_spec {E V : Type} (env : CacheEnv E V) (qe : E) :
    ∀ (entries : List (E × V)) (acc : Option V × ℚ),
      semantic_redis_scan env qe entries acc = acc ∨
        ∃ p, p ∈ entries ∧
          semantic_redis_scan env qe entries acc = (some p.2, env.cos qe p.1) ∧
          env.threshold ≤ env.cos qe p.1 := by
  intro entries
  induction entries with
  | nil => exact fun acc => Or.inl rfl
  | cons hd tl ih =>
      intro acc
      rw [semantic_redis_scan]
      by_cases hc : acc.2 < env.cos qe hd.1 ∧ env.threshold ≤ env.cos qe hd.1
      · rw [if_pos hc]
        by_cases h95 : (95:ℚ)/100 ≤ env.cos qe hd.1
        · rw [if_pos h95]
          exact Or.inr ⟨hd, List.mem_cons_self hd tl, rfl, hc.2⟩
        · rw [if_neg h95]
          rcases ih (some hd.2, env.cos qe hd.1) with heq | ⟨p, hp, heq, hth⟩
          · exact Or.inr ⟨hd, List.mem_cons_self hd tl, heq, hc.2⟩
          · exact Or.inr ⟨p, List.mem_cons_of_mem hd hp, heq, hth⟩
      · rw [if_neg hc]
        rcases ih acc with heq | ⟨p, hp, heq, hth⟩
        · exact Or.inl heq
        · exact Or.inr ⟨p, List.mem_cons_of_mem hd hp, heq, hth⟩

/-- Characterization of a get's returned value: the exact tier answers on
a fresh exact entry, and otherwise the semantic tier runs on the queried
task type's partition — so the result depends only on the entry under the
exact key and on that one partition. -/
theorem get_result_eq {E V : Type} (env : CacheEnv E V) (now : ℚ)
    (p task temp : String) (s : CacheState E V) :
    (get_cached_result env now p task temp s).1 =
      if env.enabled = false then none
      else
        match s.exact (get_exact_cache_key env.md5 p task temp) with
        | some rv =>
            if now < rv.2 then some rv.1
            else semantic_tier_result env p (s.semantic task)
        | none => semantic_tier_result env p (s.semantic task) := by
  rw [get_cached_result]
  split_ifs with hen
  · rfl
  · dsimp only
    rcases hk : s.exact (get_exact_cache_key env.md5 p task temp) with _ | rv
    · rw [exact_memory_lookup, hk]
      dsimp only
      rw [semantic_tier_result]
      rcases hemb : env.get_embedding p with _ | qe
      · simp only [hemb]
      · simp only [hemb]
        rcases hscan : (semantic_memory_scan env qe (s.semantic task)).1 with _ | r
        · simp only [hscan]
        · simp only [hscan]
          split_ifs <;> rfl
    · rw [exact_memory_lookup, hk]
      dsimp only
      by_cases hfr : now < rv.2
      · rw [if_pos hfr, if_pos hfr]
      · rw [if_neg hfr, if_neg hfr]
        dsimp only
        rw [semantic_tier_result]
        rcases hemb : env.get_embedding p with _ | qe
        · simp only [hemb]
        · simp only [hemb]
          rcases hscan : (semantic_memory_scan env qe (s.semantic task)).1 with _ | r
          · simp only [hscan]
          · simp only [hscan]
            split_ifs <;> rfl

/-- C6 fails as stated: the Redis-path scan exits early at the first entry
with similarity 0.95 and returns its result 1 although a later entry
qualifies with the higher similarity 0.99 — so the entry with the highest
qualifying similarity is not returned there; and the in-memory scan has no
early exit at 0.95: it scans on and returns the 0.99 entry's result 2. -/
theorem C6_semantic_lookup_counterexample :
    semantic_redis_lookup env_c 0 [(95/100, 1), (99/100, 2)] = some 1 ∧
    (semantic_memory_scan env_c 0 [("h1", 95/100, 1), ("h2", 99/100, 2)]).1 = some 2 ∧
    env_c.threshold ≤ env_c.cos 0 (99/100) ∧
    env_c.cos 0 (95/100) < env_c.cos 0 (99/100) := by
  refine ⟨?_, ?_, ?_, ?_⟩
  · norm_num [semantic_redis_lookup, semantic_redis_scan, env_c, default_threshold]
  · norm_num [semantic_memory_scan, scan_step, env_c, default_threshold]
  · norm_num [env_c, default_threshold]
  · norm_num [env_c]

/-- C6 amended: in both paths an entry is accepted only when its cosine
similarity is at or above the threshold and only the queried task-type
partition is scanned; the in-memory scan has no early exit and returns
the entry with the highest qualifying similarity; the Redis scan exits
early at the first entry with similarity ≥ 0.95 and returns it, which
need not be the highest-qualifying entry. -/
theorem C6_semantic_lookup (E V : Type) (env : CacheEnv E V) (qe : E) :
    (∀ (entries : List (String × E × V)) (r : V),
      (semantic_memory_scan env qe entries).1 = some r →
      (∃ p, p ∈ entries ∧ p.2.2 = r ∧
        env.cos qe p.2.1 = (semantic_memory_scan env qe entries).2 ∧
        env.threshold ≤ env.cos qe p.2.1) ∧
      (∀ p ∈ entries, env.threshold ≤ env.cos qe p.2.1 →
        env.cos qe p.2.1 ≤ (semantic_memory_scan env qe entries).2)) ∧
    (∀ (entries : List (E × V)) (r : V),
      semantic_redis_lookup env qe entries = some r →
      ∃ p, p ∈ entries ∧ p.2 = r ∧ env.threshold ≤ env.cos qe p.1) ∧
    (∀ (entry : E × V) (rest : List (E × V)) (acc : Option V × ℚ),
      acc.2 < env.cos qe entry.1 → env.threshold ≤ env.cos qe entry.1 →
      (95:ℚ)/100 ≤ env.cos qe entry.1 →
      semantic_redis_scan env qe (entry :: rest) acc = (some entry.2, env.cos qe entry.1)) ∧
    (∀ (now : ℚ) (p task temp : String) (s s1 : CacheState E V),
      s.exact = s1.exact → s.semantic task = s1.semantic task →
      (get_cached_result env now p task temp s).1
        = (get_cached_result env now p task temp s1).1) := by
  refine ⟨?_, ?_, ?_, ?_⟩
  · intro entries r h
    rcases scan_fold_spec env qe entries (none, 0) with ⟨hres, _, hmax⟩
    rcases hres with heq | ⟨p, hp, heq, hth⟩
    · rw [semantic_memory_scan, heq] at h
      exact absurd h (by simp)
    · rw [semantic_memory_scan, heq] at h ⊢
      refine ⟨⟨p, hp, by simpa using h, rfl, hth⟩, ?_⟩
      intro q hq hthq
      have hq2 := hmax q hq hthq
      rwa [heq] at hq2
  · intro entries r h
    rw [semantic_redis_lookup] at h
    rcases semantic_redis_scan_spec env qe entries (none, 0) with heq | ⟨p, hp, heq, hth⟩
    · rw [heq] at h
      exact absurd h (by simp)
    · rw [heq] at h
      dsimp only at h
      split_ifs at h with htr
      exact ⟨p, hp, by simpa using h, hth⟩
  · intro entry rest acc h1 h2 h95
    rw [semantic_redis_scan, if_pos ⟨h1, h2⟩, if_pos h95]
  · intro now p task temp s s1 hex hsem
    rw [get_result_eq, get_result_eq, hex, hsem]

/-- Witness for C6 amended: an early-exit entry of similarity 1 is
returned regardless of the rest of the scan list. -/
theorem C6_semantic_lookup_witness :
    semantic_redis_scan env_c 0 [((1:ℚ), (5:ℤ)), (2, 9)] (none, 0)
      = (some 5, env_c.cos 0 1) :=
  (C6_semantic_lookup ℚ ℤ env_c 0).2.2.1 (1, 5) [(2, 9)] (none, 0)
    (by norm_num [env_c]) (by norm_num [env_c, default_threshold]) (by norm_num [env_c])

end RaindropCommander
